import Mathlib

/-!
Verification of the bin-remapping / normalization core of `create-plots.py`.

The script defines hardcoded survey age distributions (some as raw counts,
some as percentages), converts counts to percentages, and remaps each
distribution onto a common coarse binning by literal arithmetic expressions.
We embed all numeric data as exact rationals (`ℚ`); Python float arithmetic
on these decimal literals is the rounded image of this exact arithmetic,
and the spec's "up to floating-point rounding" clauses are stated here as
exact equalities or explicit tolerance bounds.
-/

namespace CreatePlots

/-! ## Datasets (literal definitions from the script) -/

def opensuse_bins : List String := ["≤25", "25-34", "35-49", "50+"]

def opensuse_values : List ℚ := [19, 26, 42, 12.5]

def stackoverflow_bins : List String :=
  ["<18", "18-24", "25-34", "35-44", "45-54", "55-64", "≥65", "No answer"]

def stackoverflow_2023_counts : List ℕ :=
  [4128, 17931, 33247, 20532, 8334, 3392, 1171, 449]

def stackoverflow_2023_total : ℕ := stackoverflow_2023_counts.sum

def stackoverflow_2023_values : List ℚ :=
  stackoverflow_2023_counts.map
    (fun count : ℕ => (count : ℚ) / (stackoverflow_2023_total : ℚ) * 100)

def stackoverflow_2025_values : List ℚ :=
  [0, 18.7, 33.6, 26.9, 12.8, 5.3, 1.9, 0.8]

def stackoverflow_2021_values : List ℚ :=
  [6.52, 25.47, 39.52, 18.42, 6.64, 2.21, 0.51, 0.7]

def stackoverflow_2016_values : List ℚ :=
  [4.3, 26.4, 28.4 + 18.1, 14.7, 6.0, 2.0, 0.3]

def linux_foundation_bins : List String :=
  ["18-24", "25-34", "35-44", "45-54", "55-64", "65-74", "≥75", "No answer"]

def linux_foundation_values : List ℚ := [8, 22, 29, 21, 13, 4, 2, 1]

def debian_bins : List String := ["<20", "20-29", "30-39", "40-49", "50-59", ">60"]

def debian_counts : List ℕ := [15, 132, 378, 225, 57, 15]

def debian_total : ℕ := debian_counts.sum

def debian_values : List ℚ :=
  debian_counts.map (fun count : ℕ => (count : ℚ) / (debian_total : ℚ) * 100)

def cncf_bins : List String := ["<18", "18-24", "25-34", "35-44", "45-54", "≥55"]

def cncf_values : List ℚ := [1, 22, 32, 25, 12, 7]

def so_values_for_reference : List ℚ := stackoverflow_2023_values.dropLast

/-! ## Coarse binning (literal remapping expressions from the script) -/

def coarse_bins : List String := ["<25", "25-34", "35-44", "45-54", "55+"]

def opensuse_coarse : List ℚ :=
  [opensuse_values.getD 0 0,
   opensuse_values.getD 1 0,
   opensuse_values.getD 2 0 * 0.67,
   opensuse_values.getD 2 0 * 0.33,
   opensuse_values.getD 3 0]

def stackoverflow_coarse : List ℚ :=
  [stackoverflow_2023_values.getD 0 0 + stackoverflow_2023_values.getD 1 0,
   stackoverflow_2023_values.getD 2 0,
   stackoverflow_2023_values.getD 3 0,
   stackoverflow_2023_values.getD 4 0,
   stackoverflow_2023_values.getD 5 0 + stackoverflow_2023_values.getD 6 0]

def linux_foundation_coarse : List ℚ :=
  [linux_foundation_values.getD 0 0,
   linux_foundation_values.getD 1 0,
   linux_foundation_values.getD 2 0,
   linux_foundation_values.getD 3 0,
   linux_foundation_values.getD 4 0 + linux_foundation_values.getD 5 0
     + linux_foundation_values.getD 6 0]

def debian_coarse : List ℚ :=
  [debian_values.getD 0 0 + debian_values.getD 1 0 * 0.4,
   debian_values.getD 1 0 * 0.6 + debian_values.getD 2 0 * 0.4,
   debian_values.getD 2 0 * 0.6 + debian_values.getD 3 0 * 0.4,
   debian_values.getD 3 0 * 0.6 + debian_values.getD 4 0 * 0.4,
   debian_values.getD 4 0 * 0.6 + debian_values.getD 5 0]

def cncf_coarse : List ℚ :=
  [cncf_values.getD 0 0 + cncf_values.getD 1 0,
   cncf_values.getD 2 0,
   cncf_values.getD 3 0,
   cncf_values.getD 4 0,
   cncf_values.getD 5 0]

/-! ## The remapping operation -/

/-- A remapping rule: what fraction of one source bin's value contributes to
one target bin. -/
structure RemappingRule where
  source_bin_index : ℕ
  target_bin_index : ℕ
  fraction : ℚ
deriving DecidableEq

/-- Modelled from the spec: the script writes each coarse remapping as a
literal list expression and has no standalone `remap` function.  This is the
spec's operation `remap(distribution, rules) -> values`: for each target bin
`j`, `target_value[j]` is the sum over rules with target `j` of
`source_value[rule.source_bin_index] * rule.fraction`. -/
def remap (values : List ℚ) (rules : List RemappingRule) (m : ℕ) : List ℚ :=
  (List.range m).map fun j =>
    ((rules.filter fun r => r.target_bin_index == j).map
      fun r => values.getD r.source_bin_index 0 * r.fraction).sum

/-- The total fraction a rule set assigns out of source bin `i`. -/
def fracSum (rules : List RemappingRule) (i : ℕ) : ℚ :=
  ((rules.filter fun r => r.source_bin_index == i).map RemappingRule.fraction).sum

/-- Modelled from the spec: the identity rule set on `n` bins, each source bin
mapped with fraction 1.0 to the same-index target bin. -/
def identityRules (n : ℕ) : List RemappingRule :=
  (List.range n).map fun i => ⟨i, i, 1⟩

/-- Modelled from the spec: `counts_to_percentages(counts) -> values`, inlined
in the script for the Stack Overflow 2023 and Debian datasets; `none` models
the DivisionError/ZeroDivisionError demanded when the total is zero. -/
def counts_to_percentages (counts : List ℕ) : Option (List ℚ) :=
  if counts.sum = 0 then none
  else some (counts.map fun count : ℕ => (count : ℚ) / (counts.sum : ℚ) * 100)

/-! ## Helper lemmas -/

lemma sum_map_range (m : ℕ) (f : ℕ → ℚ) :
    ((List.range m).map f).sum = ∑ j in Finset.range m, f j := by
  induction m with
  | zero => simp
  | succ n ih => rw [List.range_succ, Finset.sum_range_succ]; simp [ih]

lemma bucket_sum (idx : RemappingRule → ℕ) (g : RemappingRule → ℚ)
    (rules : List RemappingRule) (m : ℕ) :
    ∑ j in Finset.range m, ((rules.filter fun r => idx r == j).map g).sum
      = ((rules.filter fun r => decide (idx r < m)).map g).sum := by
  induction rules with
  | nil => simp
  | cons r rs ih =>
    have hsplit : ∀ j : ℕ, (((r :: rs).filter fun x => idx x == j).map g).sum
        = (if idx r = j then g r else 0)
          + ((rs.filter fun x => idx x == j).map g).sum := by
      intro j
      by_cases h : idx r = j <;> simp [List.filter_cons, h]
    simp only [hsplit]
    rw [Finset.sum_add_distrib, ih,
      Finset.sum_ite_eq (Finset.range m) (idx r) fun _ => g r]
    by_cases h : idx r < m <;> simp [List.filter_cons, h, Finset.mem_range]

lemma getD_nonneg (l : List ℚ) (hv : ∀ v ∈ l, 0 ≤ v) (i : ℕ) : 0 ≤ l.getD i 0 := by
  rw [List.getD_eq_getElem?_getD]
  rcases h : l[i]? with _ | v
  · simp
  · obtain ⟨hlt, hget⟩ := List.getElem?_eq_some_iff.1 h
    simpa using hv v (hget ▸ List.getElem_mem hlt)

lemma sum_filter_source (values : List ℚ) (rules : List RemappingRule) (i : ℕ) :
    ((rules.filter fun r => r.source_bin_index == i).map
        fun r => values.getD r.source_bin_index 0 * r.fraction).sum
      = values.getD i 0 * fracSum rules i := by
  unfold fracSum
  rw [← List.sum_map_mul_left]
  congr 1
  apply List.map_congr_left
  intro r hr
  have hsrc : r.source_bin_index = i := by
    have := (List.mem_filter.mp hr).2
    simpa using this
  rw [hsrc]

lemma sum_getD_range (l : List ℚ) :
    ∑ i in Finset.range l.length, l.getD i 0 = l.sum := by
  induction l with
  | nil => simp
  | cons a t ih =>
    rw [List.length_cons, Finset.sum_range_succ']
    simp only [List.getD_cons_succ, List.getD_cons_zero, List.sum_cons]
    rw [ih, add_comm]

lemma remap_sum_decomp (values : List ℚ) (rules : List RemappingRule) (m : ℕ)
    (ht : ∀ r ∈ rules, r.target_bin_index < m)
    (hs : ∀ r ∈ rules, r.source_bin_index < values.length) :
    (remap values rules m).sum
      = ∑ i in Finset.range values.length, values.getD i 0 * fracSum rules i := by
  unfold remap
  rw [sum_map_range,
    bucket_sum RemappingRule.target_bin_index
      (fun r => values.getD r.source_bin_index 0 * r.fraction) rules m,
    List.filter_eq_self.mpr fun r hr => by simpa using ht r hr]
  have h2 := bucket_sum RemappingRule.source_bin_index
    (fun r => values.getD r.source_bin_index 0 * r.fraction) rules values.length
  rw [List.filter_eq_self.mpr fun r hr => by simpa using hs r hr] at h2
  rw [← h2]
  exact Finset.sum_congr rfl fun i _ => sum_filter_source values rules i

lemma remap_sum_eq_of_fracSum_one (values : List ℚ) (rules : List RemappingRule)
    (m : ℕ) (ht : ∀ r ∈ rules, r.target_bin_index < m)
    (hs : ∀ r ∈ rules, r.source_bin_index < values.length)
    (hfrac : ∀ i < values.length, fracSum rules i = 1) :
    (remap values rules m).sum = values.sum := by
  rw [remap_sum_decomp values rules m ht hs, ← sum_getD_range values]
  apply Finset.sum_congr rfl
  intro i hi
  rw [hfrac i (Finset.mem_range.mp hi), mul_one]

lemma remap_sum_tolerance (values : List ℚ) (rules : List RemappingRule)
    (m : ℕ) (ht : ∀ r ∈ rules, r.target_bin_index < m)
    (hs : ∀ r ∈ rules, r.source_bin_index < values.length)
    (hv : ∀ v ∈ values, 0 ≤ v)
    (hfrac : ∀ i < values.length, |fracSum rules i - 1| ≤ 1 / 1000000) :
    |(remap values rules m).sum - values.sum| ≤ 1 / 1000000 * values.sum := by
  rw [remap_sum_decomp values rules m ht hs]
  nth_rewrite 1 [← sum_getD_range values]
  rw [← Finset.sum_sub_distrib]
  calc |∑ i in Finset.range values.length,
          (values.getD i 0 * fracSum rules i - values.getD i 0)|
      ≤ ∑ i in Finset.range values.length,
          |values.getD i 0 * fracSum rules i - values.getD i 0| :=
        Finset.abs_sum_le_sum_abs _ _
    _ ≤ ∑ i in Finset.range values.length, values.getD i 0 * (1 / 1000000) := by
        apply Finset.sum_le_sum
        intro i hi
        have hnn : 0 ≤ values.getD i 0 := getD_nonneg values hv i
        have hfac : values.getD i 0 * fracSum rules i - values.getD i 0
            = values.getD i 0 * (fracSum rules i - 1) := by ring
        rw [hfac, abs_mul, abs_of_nonneg hnn]
        exact mul_le_mul_of_nonneg_left (hfrac i (Finset.mem_range.mp hi)) hnn
    _ = 1 / 1000000 * values.sum := by
        rw [← Finset.sum_mul, sum_getD_range, mul_comm]

lemma map_getD_range (l : List ℚ) :
    (List.range l.length).map (fun j => l.getD j 0) = l := by
  induction l with
  | nil => simp
  | cons a t ih =>
    rw [List.length_cons, List.range_succ_eq_map, List.map_cons, List.map_map]
    simp only [Function.comp_def, Nat.succ_eq_add_one, List.getD_cons_zero,
      List.getD_cons_succ]
    rw [ih]

lemma range_filter_beq (n j : ℕ) (hj : j < n) :
    (List.range n).filter (fun i => i == j) = [j] := by
  induction n with
  | zero => omega
  | succ k ih =>
    rw [List.range_succ, List.filter_append]
    rcases Nat.lt_succ_iff_lt_or_eq.mp hj with h | h
    · rw [ih h]
      have hk : List.filter (fun i => i == j) [k] = [] := by
        simp only [List.filter_eq_nil_iff, List.mem_singleton]
        intro a ha
        subst ha
        simp
        omega
      rw [hk, List.append_nil]
    · subst h
      have h1 : (List.range j).filter (fun i => i == j) = [] := by
        simp only [List.filter_eq_nil_iff]
        intro a ha
        have := List.mem_range.mp ha
        simp
        omega
      simp [h1]

lemma filter_identityRules (n j : ℕ) (hj : j < n) :
    (identityRules n).filter (fun r => r.target_bin_index == j)
      = [(⟨j, j, 1⟩ : RemappingRule)] := by
  unfold identityRules
  rw [List.filter_map]
  have hcomp : ((fun (r : RemappingRule) => r.target_bin_index == j) ∘
      fun i => (⟨i, i, 1⟩ : RemappingRule)) = fun i => i == j := rfl
  rw [hcomp, range_filter_beq n j hj, List.map_singleton]

lemma remap_length (values : List ℚ) (rules : List RemappingRule) (m : ℕ) :
    (remap values rules m).length = m := by
  simp [remap]

lemma remap_mem_nonneg (values : List ℚ) (rules : List RemappingRule) (m : ℕ)
    (hv : ∀ v ∈ values, 0 ≤ v) (hf : ∀ r ∈ rules, 0 ≤ r.fraction) :
    ∀ x ∈ remap values rules m, 0 ≤ x := by
  intro x hx
  unfold remap at hx
  obtain ⟨j, hj, rfl⟩ := List.mem_map.mp hx
  apply List.sum_nonneg
  intro y hy
  obtain ⟨r, hr, rfl⟩ := List.mem_map.mp hy
  exact mul_nonneg (getD_nonneg values hv _) (hf r (List.mem_filter.mp hr).1)

/-! ## Claim theorems -/

/-- C1: Mass preservation of remapping.  For every source distribution and
every rule set whose fractions per source bin sum to 1.0 within 1e-6 (first
conjunct), the sum of the remapped values differs from the source sum by at
most that tolerance times the total; when the fractions sum to exactly 1
(second conjunct) the sums are exactly equal, which is the ℚ reading of
"equal up to floating-point rounding".  In particular
`sum(opensuse_coarse) = sum(opensuse_values)` and
`sum(debian_coarse) = sum(debian_values)`. -/
theorem mass_preservation_of_remap :
    (∀ (values : List ℚ) (rules : List RemappingRule) (m : ℕ),
      (∀ r ∈ rules, r.target_bin_index < m) →
      (∀ r ∈ rules, r.source_bin_index < values.length) →
      (∀ v ∈ values, 0 ≤ v) →
      (∀ i < values.length, |fracSum rules i - 1| ≤ 1 / 1000000) →
      |(remap values rules m).sum - values.sum| ≤ 1 / 1000000 * values.sum) ∧
    (∀ (values : List ℚ) (rules : List RemappingRule) (m : ℕ),
      (∀ r ∈ rules, r.target_bin_index < m) →
      (∀ r ∈ rules, r.source_bin_index < values.length) →
      (∀ i < values.length, fracSum rules i = 1) →
      (remap values rules m).sum = values.sum) ∧
    opensuse_coarse.sum = opensuse_values.sum ∧
    debian_coarse.sum = debian_values.sum := by
  refine ⟨remap_sum_tolerance, remap_sum_eq_of_fracSum_one, ?_, ?_⟩
  · norm_num [opensuse_coarse, opensuse_values]
  · norm_num [debian_coarse, debian_values, debian_counts, debian_total]

/-- Witness for C1's theorem at the one-bin distribution `[5]` with the
single rule mapping bin 0 to bin 0 with fraction 1. -/
theorem mass_preservation_of_remap_witness :
    ((∀ r ∈ [(⟨0, 0, 1⟩ : RemappingRule)], r.target_bin_index < 1) ∧
     (∀ r ∈ [(⟨0, 0, 1⟩ : RemappingRule)],
        r.source_bin_index < ([5] : List ℚ).length) ∧
     (∀ i < ([5] : List ℚ).length, fracSum [(⟨0, 0, 1⟩ : RemappingRule)] i = 1)) ∧
    (remap [5] [(⟨0, 0, 1⟩ : RemappingRule)] 1).sum = ([5] : List ℚ).sum :=
  ⟨⟨by decide, by decide,
    by
      intro i hi
      have h0 : i = 0 := by simp at hi; omega
      subst h0
      simp [fracSum]⟩,
   mass_preservation_of_remap.2.1 [5] [(⟨0, 0, 1⟩ : RemappingRule)] 1
     (by decide) (by decide)
     (by
       intro i hi
       have h0 : i = 0 := by simp at hi; omega
       subst h0
       simp [fracSum])⟩

/-- C2: `counts_to_percentages` correctness: on a count list with positive
total it returns a list of the same length whose `i`-th entry is
`count_i / total * 100`, and applied to the Stack Overflow 2023 and Debian
count lists it produces exactly the value lists the script defines. -/
theorem counts_to_percentages_correct :
    (∀ counts : List ℕ, 0 < counts.sum →
      ∃ vs, counts_to_percentages counts = some vs ∧
        vs.length = counts.length ∧
        ∀ i < counts.length,
          vs.getD i 0 = (counts.getD i 0 : ℚ) / (counts.sum : ℚ) * 100) ∧
    counts_to_percentages stackoverflow_2023_counts
      = some stackoverflow_2023_values ∧
    counts_to_percentages debian_counts = some debian_values := by
  refine ⟨?_, ?_, ?_⟩
  · intro counts hpos
    refine ⟨counts.map fun count : ℕ => (count : ℚ) / (counts.sum : ℚ) * 100,
      ?_, List.length_map _ _, ?_⟩
    · unfold counts_to_percentages
      rw [if_neg (by omega)]
    · intro i hi
      rw [List.getD_eq_getElem?_getD, List.getD_eq_getElem?_getD,
        List.getElem?_map, List.getElem?_eq_getElem hi]
      simp only [Option.map_some', Option.getD_some]
  · unfold counts_to_percentages
    rw [if_neg (by decide)]
    rfl
  · unfold counts_to_percentages
    rw [if_neg (by decide)]
    rfl

/-- Witness for C2's theorem at the count list `[3, 1]`. -/
theorem counts_to_percentages_correct_witness :
    0 < ([3, 1] : List ℕ).sum ∧
    ∃ vs, counts_to_percentages [3, 1] = some vs ∧
      vs.length = ([3, 1] : List ℕ).length ∧
      ∀ i < ([3, 1] : List ℕ).length,
        vs.getD i 0
          = (([3, 1] : List ℕ).getD i 0 : ℚ) / (([3, 1] : List ℕ).sum : ℚ) * 100 :=
  ⟨by decide, counts_to_percentages_correct.1 [3, 1] (by decide)⟩

/-- C3: zero-total failure: the conversion fails (returns `none`, modelling
the division error) exactly when the counts sum to 0, and succeeds on every
count list with positive total. -/
theorem counts_to_percentages_zero_total :
    (∀ counts : List ℕ, counts.sum = 0 → counts_to_percentages counts = none) ∧
    (∀ counts : List ℕ, 0 < counts.sum →
      (counts_to_percentages counts).isSome = true) := by
  constructor
  · intro counts h
    unfold counts_to_percentages
    rw [if_pos h]
  · intro counts h
    unfold counts_to_percentages
    rw [if_neg (by omega)]
    rfl

/-- Witness for C3's theorem at the all-zero list `[0, 0]` and at `[2]`. -/
theorem counts_to_percentages_zero_total_witness :
    (([0, 0] : List ℕ).sum = 0 ∧ counts_to_percentages [0, 0] = none) ∧
    (0 < ([2] : List ℕ).sum ∧ (counts_to_percentages [2]).isSome = true) :=
  ⟨⟨by decide, counts_to_percentages_zero_total.1 [0, 0] (by decide)⟩,
   ⟨by decide, counts_to_percentages_zero_total.2 [2] (by decide)⟩⟩

/-- C4: openSUSE remap test vector: the script's `opensuse_coarse` equals
`[19, 26, 28.14, 13.86, 12.5]` exactly (the 0.67/0.33 split of the 42% bin
gives exactly 28.14 and 13.86 in exact arithmetic). -/
theorem opensuse_coarse_test_vector :
    opensuse_coarse = [19, 26, 28.14, 13.86, 12.5] := by
  norm_num [opensuse_coarse, opensuse_values]

/-- C5 counterexample: the Debian counts `[15, 132, 378, 225, 57, 15]` sum
to 822, not 812, so the first percentage is not `15 / 812 * 100` and is not
within 0.01 of 1.84 (it is `15 / 822 * 100 ≈ 1.825`). -/
theorem debian_values_claim_false :
    debian_counts.sum ≠ 812 ∧
    debian_values.getD 0 0 ≠ 15 / 812 * 100 ∧
    ¬ |debian_values.getD 0 0 - 1.84| < 1 / 100 := by
  refine ⟨by decide, ?_, ?_⟩ <;>
    norm_num [debian_values, debian_counts, debian_total, abs_lt]

/-- C5 (amended): Debian test vector: the percentages derived from the
counts `[15, 132, 378, 225, 57, 15]` (total 822) sum to exactly 100 (hence
within 1e-6 of 100.0) and the first element is `15 / 822 * 100`, within
0.01 of 1.82. -/
theorem debian_values_test_vector :
    debian_values.sum = 100 ∧
    debian_values.getD 0 0 = 15 / 822 * 100 ∧
    |debian_values.getD 0 0 - 1.82| < 1 / 100 := by
  refine ⟨?_, ?_, ?_⟩ <;>
    norm_num [debian_values, debian_counts, debian_total, abs_lt]

/-- C6: CNCF remap test vector: merging the first two bins and passing the
rest through yields exactly `[23, 32, 25, 12, 7]`, whose sum is 99, equal to
the sum of the source values. -/
theorem cncf_coarse_test_vector :
    cncf_coarse = [23, 32, 25, 12, 7] ∧
    cncf_coarse.sum = 99 ∧
    cncf_coarse.sum = cncf_values.sum := by
  refine ⟨?_, ?_, ?_⟩ <;> norm_num [cncf_coarse, cncf_values]

/-- C7: idempotence under identity rules: remapping any distribution already
expressed in the target binning with the identity rule set returns the
original values unchanged. -/
theorem remap_identity_rules (values : List ℚ) :
    remap values (identityRules values.length) values.length = values := by
  unfold remap
  have hpt : ∀ j ∈ List.range values.length,
      (((identityRules values.length).filter
          fun r => r.target_bin_index == j).map
        fun r => values.getD r.source_bin_index 0 * r.fraction).sum
      = values.getD j 0 := by
    intro j hj
    rw [filter_identityRules values.length j (List.mem_range.mp hj)]
    simp
  rw [List.map_congr_left hpt, map_getD_range]

/-- C8: dataset invariant: every survey value list defined in the script is
elementwise non-negative, and its sum is approximately 100 (within 1 of 100,
covering rounding and "No answer" buckets). -/
theorem dataset_invariant :
    ((∀ v ∈ opensuse_values, 0 ≤ v) ∧ |opensuse_values.sum - 100| ≤ 1) ∧
    ((∀ v ∈ stackoverflow_2016_values, 0 ≤ v) ∧
      |stackoverflow_2016_values.sum - 100| ≤ 1) ∧
    ((∀ v ∈ stackoverflow_2021_values, 0 ≤ v) ∧
      |stackoverflow_2021_values.sum - 100| ≤ 1) ∧
    ((∀ v ∈ stackoverflow_2023_values, 0 ≤ v) ∧
      |stackoverflow_2023_values.sum - 100| ≤ 1) ∧
    ((∀ v ∈ stackoverflow_2025_values, 0 ≤ v) ∧
      |stackoverflow_2025_values.sum - 100| ≤ 1) ∧
    ((∀ v ∈ linux_foundation_values, 0 ≤ v) ∧
      |linux_foundation_values.sum - 100| ≤ 1) ∧
    ((∀ v ∈ debian_values, 0 ≤ v) ∧ |debian_values.sum - 100| ≤ 1) ∧
    ((∀ v ∈ cncf_values, 0 ≤ v) ∧ |cncf_values.sum - 100| ≤ 1) := by
  refine ⟨⟨?_, ?_⟩, ⟨?_, ?_⟩, ⟨?_, ?_⟩, ⟨?_, ?_⟩, ⟨?_, ?_⟩, ⟨?_, ?_⟩,
    ⟨?_, ?_⟩, ⟨?_, ?_⟩⟩ <;>
    norm_num [opensuse_values, stackoverflow_2016_values,
      stackoverflow_2021_values, stackoverflow_2023_values,
      stackoverflow_2023_counts, stackoverflow_2023_total,
      stackoverflow_2025_values, linux_foundation_values, debian_values,
      debian_counts, debian_total, cncf_values, abs_le, List.forall_mem_cons]

/-- C9: the remap output is a list of exactly `m` values, each non-negative,
whenever the source values and the rule fractions are non-negative; in
particular every element of each of the five coarse lists in the script is
non-negative. -/
theorem remap_nonneg_result :
    (∀ (values : List ℚ) (rules : List RemappingRule) (m : ℕ),
      (∀ v ∈ values, 0 ≤ v) → (∀ r ∈ rules, 0 ≤ r.fraction) →
      (remap values rules m).length = m ∧ ∀ x ∈ remap values rules m, 0 ≤ x) ∧
    (∀ x ∈ opensuse_coarse, 0 ≤ x) ∧
    (∀ x ∈ stackoverflow_coarse, 0 ≤ x) ∧
    (∀ x ∈ linux_foundation_coarse, 0 ≤ x) ∧
    (∀ x ∈ debian_coarse, 0 ≤ x) ∧
    (∀ x ∈ cncf_coarse, 0 ≤ x) := by
  refine ⟨fun values rules m hv hf =>
    ⟨remap_length values rules m, remap_mem_nonneg values rules m hv hf⟩,
    ?_, ?_, ?_, ?_, ?_⟩ <;>
    norm_num [opensuse_coarse, opensuse_values, stackoverflow_coarse,
      stackoverflow_2023_values, stackoverflow_2023_counts,
      stackoverflow_2023_total, linux_foundation_coarse,
      linux_foundation_values, debian_coarse, debian_values, debian_counts,
      debian_total, cncf_coarse, cncf_values, List.forall_mem_cons]

/-- Witness for C9's theorem at the distribution `[2, 3]` with a single rule
sending bin 0 to bin 1 with fraction 1, into 5 target bins. -/
theorem remap_nonneg_result_witness :
    ((∀ v ∈ ([2, 3] : List ℚ), 0 ≤ v) ∧
     (∀ r ∈ [(⟨0, 1, 1⟩ : RemappingRule)], 0 ≤ r.fraction)) ∧
    ((remap [2, 3] [(⟨0, 1, 1⟩ : RemappingRule)] 5).length = 5 ∧
     ∀ x ∈ remap [2, 3] [(⟨0, 1, 1⟩ : RemappingRule)] 5, 0 ≤ x) :=
  ⟨⟨by decide, by decide⟩,
   remap_nonneg_result.1 [2, 3] [(⟨0, 1, 1⟩ : RemappingRule)] 5
     (by decide) (by decide)⟩

/-- C10: the two datasets with a "No answer" bin lose that bin's mass under
the coarse remapping: `sum(stackoverflow_coarse) = 100 * (89184 - 449) /
89184 < 100 = sum(stackoverflow_2023_values)` and
`sum(linux_foundation_coarse) = 99 < 100 = sum(linux_foundation_values)`. -/
theorem no_answer_bin_dropped :
    stackoverflow_coarse.sum = 100 * (89184 - 449) / 89184 ∧
    stackoverflow_2023_values.sum = 100 ∧
    stackoverflow_coarse.sum < stackoverflow_2023_values.sum ∧
    linux_foundation_coarse.sum = 99 ∧
    linux_foundation_values.sum = 100 ∧
    linux_foundation_coarse.sum < linux_foundation_values.sum := by
  refine ⟨?_, ?_, ?_, ?_, ?_, ?_⟩ <;>
    norm_num [stackoverflow_coarse, stackoverflow_2023_values,
      stackoverflow_2023_counts, stackoverflow_2023_total,
      linux_foundation_coarse, linux_foundation_values]

end CreatePlots
